import Mathlib

/-!
Verification of the `school_management` Django backend (`SH_GIN` repository).

The definitions below are a shallow embedding of the relational data model
(`api/models.py`), the write contracts of the serializers
(`api/serializers.py`) and the request handlers (`api/views.py`).
Machine-level concerns (HTTP, JSON encoding, the ORM) are abstracted away:
rows become Lean structures, tables become lists of rows, and each endpoint
becomes a function from state (and request data) to state.
-/

namespace SchoolMgmt

/-- Role of a `User` (`models.py`, `User.Role`). -/
inductive Role
  | principal
  | teacher
  | student
deriving DecidableEq

/-- Status of an `Attendance` row (`models.py`, `Attendance.Status`). -/
inductive AttStatus
  | present
  | absent
  | late
deriving DecidableEq

/-- Status of a `Fee` row (`models.py`, `Fee.Status`).  The third source
value is the string tagged "Partial"; it is renamed here because its Python
identifier is a Lean keyword. -/
inductive FeeStatus
  | paid
  | unpaid
  | partlyPaid
deriving DecidableEq

/-- Status of a `Task` row (`models.py`, `Task.Status`). -/
inductive TaskStatus
  | pending
  | inProgress
  | completed
  | cancelled
deriving DecidableEq

/-- Status of a `LeaveRequest` row (`models.py`, `LeaveRequest.Status`). -/
inductive LeaveStatus
  | pending
  | approved
  | rejected
deriving DecidableEq

/-! ### Attendance rate (claim C1)

`views.py` computes an attendance rate in two places:

* `StudentDashboardView.get` (lines 73-77):
  `present_days / total_days * 100` when `total_days > 0`, else `100`,
  where `present_days` counts records whose status is present or late;
* `StudentDetailView.get` (line 360):
  the same ratio when records exist, else `0`.
-/

/-- A record counts toward attendance when its status is present or late
(`views.py` lines 75-76 and 360). -/
def presentOrLate (s : AttStatus) : Bool :=
  s = AttStatus.present || s = AttStatus.late

/-- Attendance rate as computed by `StudentDashboardView.get`
(`views.py` lines 73-77): ratio of present-or-late records, `100` when the
student has no records. -/
def dashboardAttendanceRate (records : List AttStatus) : ℚ :=
  if records.length > 0 then
    (records.countP presentOrLate : ℚ) / (records.length : ℚ) * 100
  else 100

/-- Attendance rate as computed by `StudentDetailView.get`
(`views.py` line 360): the same ratio, but `0` when the student has no
records. -/
def detailAttendanceRate (records : List AttStatus) : ℚ :=
  if records.length > 0 then
    (records.countP presentOrLate : ℚ) / (records.length : ℚ) * 100
  else 0

/-- Attendance rate as the specification words it: present-or-late count
over total count times 100, defined as 100 when no records exist. -/
def specAttendanceRate (records : List AttStatus) : ℚ :=
  if records.length > 0 then
    (records.countP presentOrLate : ℚ) / (records.length : ℚ) * 100
  else 100

/-! ### Fees (claims C2 and C3) -/

/-- A `Fee` row (`models.py`, class `Fee`): owning student, amount, due
date and status.  Dates are abstracted as naturals, amounts as integers. -/
structure Fee where
  student : Nat
  amount : Int
  dueDate : Nat
  status : FeeStatus
deriving DecidableEq

/-- `Fee.objects.create(student=..., amount=..., due_date=...)` with the
model default `status=Status.UNPAID` (`models.py` line 175). -/
def mkUnpaidFee (student : Nat) (amount : Int) (dueDate : Nat) : Fee :=
  { student := student, amount := amount, dueDate := dueDate,
    status := FeeStatus.unpaid }

/-- The `create_class_fee` loop of `FeeActionsView.post`
(`views.py` lines 152-158).  The view iterates over the class members and
issues one `Fee.objects.create` per student, with no enclosing
transaction, so each created row is persisted as soon as its create
returns.  `failAt = some j` injects a failure at the `j`-th create (0
based); the rows created before the failure remain persisted.  Returns the
persisted fee table and whether the whole loop succeeded. -/
def createClassFeeGo (members : List Nat) (i : Nat) (failAt : Option Nat)
    (amount : Int) (dueDate : Nat) (fees : List Fee) : List Fee × Bool :=
  match members with
  | [] => (fees, true)
  | s :: rest =>
    if failAt = some i then (fees, false)
    else createClassFeeGo rest (i + 1) failAt amount dueDate
      (fees ++ [mkUnpaidFee s amount dueDate])

/-- `create_class_fee` action (`views.py` lines 152-158): create one
unpaid fee per current member of the class. -/
def create_class_fee (members : List Nat) (amount : Int) (dueDate : Nat)
    (failAt : Option Nat) (fees : List Fee) : List Fee × Bool :=
  createClassFeeGo members 0 failAt amount dueDate fees

/-- Extra `@action` routes declared on `FeeViewSet`
(`views.py` lines 225-227): the class body declares only `queryset` and
`serializer_class`, so there are none. -/
def feeViewSetExtraActions : List String := []

/-- The actions a DRF `ModelViewSet` registered on a `DefaultRouter`
exposes by default (`urls.py` line 15 registers `FeeViewSet` this way). -/
def modelViewSetDefaultActions : List String :=
  ["list", "retrieve", "create", "update", "partial_update", "destroy"]

/-- Every action reachable under the `/fees/` prefix
(`urls.py` line 15 together with `views.py` lines 225-227). -/
def feeViewSetActions : List String :=
  modelViewSetDefaultActions ++ feeViewSetExtraActions

/-- A generic fee update request (`FeeSerializer`, `serializers.py` lines
163-167): `student` is read-only, the remaining model fields are
writable. -/
structure FeeUpdateReq where
  amount : Option Int
  dueDate : Option Nat
  status : Option FeeStatus
deriving DecidableEq

/-- Generic update through `FeeSerializer` (PUT/PATCH on `/fees/pk/`):
writable fields present in the request replace the stored values; the
read-only `student` is never touched. -/
def genericFeeUpdate (f : Fee) (r : FeeUpdateReq) : Fee :=
  { f with
    amount := r.amount.getD f.amount
    dueDate := r.dueDate.getD f.dueDate
    status := r.status.getD f.status }

/-- Paying a fee with the only means the API offers: a generic update
whose body carries `status = paid`. -/
def payViaUpdate (f : Fee) : Fee :=
  genericFeeUpdate f ⟨none, none, some FeeStatus.paid⟩

/-! ### Leave requests (claim C10) -/

/-- A `LeaveRequest` row (`models.py` lines 182-192). -/
structure LeaveReq where
  user : Nat
  startDate : Nat
  endDate : Nat
  reason : String
  status : LeaveStatus
deriving DecidableEq

/-- Creation through `LeaveRequestSerializer` (`serializers.py` lines
174-182): `user` is in `read_only_fields`, and `create` overwrites it with
`self.context.request.user`, so any client-supplied owner is dropped;
`status` is a writable field whose model default (`models.py` line 192) is
`pending`, applied only when the client omits it. -/
def createLeaveRequest (authUser : Nat) (_clientUser : Option Nat)
    (startDate endDate : Nat) (reason : String)
    (clientStatus : Option LeaveStatus) : LeaveReq :=
  { user := authUser, startDate := startDate, endDate := endDate,
    reason := reason, status := clientStatus.getD LeaveStatus.pending }

/-! ### Tasks (claims C4 and C8) -/

/-- A `Task` row (`models.py` lines 206-255), restricted to the fields the
task operations read or write plus enough context to observe frame
effects.  Timestamps are abstracted as naturals. -/
structure Task where
  teacher : Nat
  title : String
  dueDate : Nat
  status : TaskStatus
  completedAt : Option Nat
deriving DecidableEq

/-- `Task.mark_completed` (`models.py` lines 246-250): set
`status = completed` and stamp `completed_at = timezone.now()`. -/
def Task.mark_completed (t : Task) (now : Nat) : Task :=
  { t with status := TaskStatus.completed, completedAt := some now }

/-- `Task.mark_in_progress` (`models.py` lines 252-255): set
`status = in_progress`; no other field is assigned, so `completed_at`
keeps whatever value it had. -/
def Task.mark_in_progress (t : Task) : Task :=
  { t with status := TaskStatus.inProgress }

/-- Creation through `TaskSerializer` (`serializers.py` lines 214-238):
the teacher comes from the authenticated user, `status` is writable with
model default `pending`, and `completed_at` is read-only, hence `none` on
a fresh row. -/
def taskCreate (teacher : Nat) (title : String) (dueDate : Nat)
    (clientStatus : Option TaskStatus) : Task :=
  { teacher := teacher, title := title, dueDate := dueDate,
    status := clientStatus.getD TaskStatus.pending, completedAt := none }

/-- Generic field update through `TaskSerializer` (PUT/PATCH on
`/tasks/pk/`): `status` is writable, `completed_at` is in
`read_only_fields` (`serializers.py` line 227) and is left untouched. -/
def taskGenericUpdate (t : Task) (newStatus : Option TaskStatus)
    (newTitle : Option String) (newDueDate : Option Nat) : Task :=
  { t with
    status := newStatus.getD t.status
    title := newTitle.getD t.title
    dueDate := newDueDate.getD t.dueDate }

/-- The task operations available through the API once a task exists
(`views.py` lines 376-421): the two `@action` routes and the generic
update. -/
inductive TaskOp
  | opMarkCompleted (now : Nat)
  | opMarkInProgress
  | opUpdate (newStatus : Option TaskStatus) (newTitle : Option String)
      (newDueDate : Option Nat)

/-- Apply one task operation. -/
def applyTaskOp (t : Task) : TaskOp → Task
  | TaskOp.opMarkCompleted now => t.mark_completed now
  | TaskOp.opMarkInProgress => t.mark_in_progress
  | TaskOp.opUpdate s ti d => taskGenericUpdate t s ti d

/-- Apply a sequence of task operations, left to right. -/
def applyTaskOps (t : Task) (ops : List TaskOp) : Task :=
  ops.foldl applyTaskOp t

/-- The invariant claimed for `Task`: `completed_at` is non-null exactly
when the status is completed. -/
def taskInvariant (t : Task) : Prop :=
  t.completedAt ≠ none ↔ t.status = TaskStatus.completed

instance (t : Task) : Decidable (taskInvariant t) := by
  unfold taskInvariant
  infer_instance

/-! ### SchoolClass deletion (claim C5) -/

/-- A `Student` row (`models.py` lines 81-90), restricted to identity,
class membership and one frame field.  `school_class` is a nullable
foreign key with `on_delete=SET_NULL`. -/
structure StudentRow where
  userId : Nat
  schoolClass : Option Nat
  rollNumber : String
deriving DecidableEq

/-- A `Timetable` row (`models.py` lines 115-128), restricted to the
fields relevant here.  `school_class` is a non-nullable foreign key with
`on_delete=CASCADE`. -/
structure TimetableRow where
  id : Nat
  schoolClass : Nat
  dayOfWeek : String
  subject : String
deriving DecidableEq

/-- The slice of database state touched by deleting a `SchoolClass`. -/
structure ClassState where
  classes : List Nat
  students : List StudentRow
  timetable : List TimetableRow
deriving DecidableEq

/-- Deleting a `SchoolClass` row, following the `on_delete` rules declared
in `models.py`: students referencing it are kept with `school_class` set
to null (`SET_NULL`, line 83), timetable entries referencing it are
deleted (`CASCADE`, line 123). -/
def deleteSchoolClass (st : ClassState) (c : Nat) : ClassState :=
  { classes := st.classes.filter (fun k => k ≠ c),
    students := st.students.map (fun s =>
      if s.schoolClass = some c then { s with schoolClass := none } else s),
    timetable := st.timetable.filter (fun t => t.schoolClass ≠ c) }

/-! ### Attendance uniqueness (claim C7) -/

/-- An `Attendance` row (`models.py` lines 102-113). -/
structure AttendanceRow where
  student : Nat
  date : Nat
  status : AttStatus
deriving DecidableEq

/-- Whether a record for the given (student, date) pair already exists. -/
def hasAttendance (recs : List AttendanceRow) (s d : Nat) : Bool :=
  recs.any (fun r => r.student == s && r.date == d)

/-- Number of records stored for a (student, date) pair. -/
def countAttendance (recs : List AttendanceRow) (s d : Nat) : Nat :=
  recs.countP (fun r => r.student == s && r.date == d)

/-- Creating an `Attendance` record.  The model declares the pair
(student, date) as `unique_together` (`models.py` lines 112-113) and
`AttendanceSerializer` exposes all fields, so DRF enforces uniqueness of
the pair: a duplicate submission is rejected with a conflict error and
the table is left unchanged, otherwise the row is inserted.  Returns the
success flag and the resulting table. -/
def createAttendance (recs : List AttendanceRow) (s d : Nat)
    (status : AttStatus) : Bool × List AttendanceRow :=
  if hasAttendance recs s d then (false, recs)
  else (true, recs ++ [{ student := s, date := d, status := status }])

/-! ### Nested profile updates (claim C9)

`StudentSerializer.update` and `TeacherSerializer.update`
(`serializers.py` lines 89-110 and 118-143) share the profile logic:
read the profile sub-dictionary of the user data, defaulting to empty;
when it is non-empty, get-or-create the `UserProfile` row and then, for
each field/value pair in it, `setattr` the field — but only when the
value is not the Python `None` — and save.

A stored profile is modelled as an association list from field name to
stored value (`none` standing for SQL null, which every profile field of
`UserProfile` admits as its blank default); the profile sub-object of a
request is a list of (field, value) pairs where `none` is JSON null. -/

/-- A stored `UserProfile` row: field name to stored value, `none` for
null. -/
abbrev Profile := List (String × Option String)

/-- Read one field of a stored profile; a field with no entry is null. -/
def getField : Profile → String → Option String
  | [], _ => none
  | e :: p, f => if e.1 == f then e.2 else getField p f

/-- `setattr(profile, f, v)`: replace the field if it exists, otherwise
record it. -/
def setField : Profile → String → Option String → Profile
  | [], f, v => [(f, v)]
  | e :: p, f, v => if e.1 == f then (f, v) :: p else e :: setField p f v

/-- The field loop of the serializer `update` methods: apply each
requested field in order, skipping entries whose value is null
(`if value is not None`). -/
def applyProfileData (p : Profile) (req : List (String × Option String)) :
    Profile :=
  req.foldl (fun acc fv =>
    if fv.2.isSome then setField acc fv.1 fv.2 else acc) p

/-- The whole profile branch of the serializer `update` methods: nothing
happens when the request carries no profile sub-fields; otherwise the
profile row is fetched or created (`get_or_create`, starting from the
blank model defaults) and the non-null requested fields are applied. -/
def updateProfile (prof : Option Profile)
    (req : List (String × Option String)) : Option Profile :=
  if req.isEmpty then prof
  else some (applyProfileData (prof.getD []) req)

/-! ### Users, students and teachers (claim C6)

State of the user directory and the operations the public API offers on
it.  `UserViewSet` is read-only (`views.py` lines 176-183); roles are
written only by `StudentSerializer.create`, which hard-codes
`role=User.Role.STUDENT` (`serializers.py` line 84).  `TeacherSerializer`
declares a writable nested `user` but no `create` override
(`serializers.py` lines 112-143), so the DRF `ModelSerializer.create`
rejects the request before any row is written. -/

/-- A `User` row restricted to identity, role and one updatable field. -/
structure UserRow where
  id : Nat
  role : Role
  firstName : String
deriving DecidableEq

/-- The user directory: user rows, the user ids carrying a `Student` row,
the user ids carrying a `Teacher` row (both models use the user as
primary key, `models.py` lines 82 and 93), and the next primary key the
database will assign. -/
structure DirState where
  users : List UserRow
  students : List Nat
  teachers : List Nat
  nextId : Nat
deriving DecidableEq

/-- The API operations that touch users, students or teachers. -/
inductive DirOp
  /-- POST `/students/`: `StudentSerializer.create` creates a `User` with
  `role=STUDENT` and a `Student` keyed by it (`serializers.py` 75-87). -/
  | opCreateStudent (firstName : String)
  /-- POST `/teachers/`: no `create` override exists, DRF rejects the
  nested write; no row is touched. -/
  | opCreateTeacher
  /-- PUT/PATCH `/students/pk/`: `StudentSerializer.update` rewrites
  email/name/profile of the backing user; `role` is never assigned. -/
  | opUpdateStudent (uid : Nat) (newFirstName : Option String)
  /-- PUT/PATCH `/teachers/pk/`: `TeacherSerializer.update`, same shape. -/
  | opUpdateTeacher (uid : Nat) (newFirstName : Option String)
  /-- POST `/admin/update-user/`: changes username/password only
  (`views.py` 136-145); none of the modelled fields move. -/
  | opAdminUpdateUser (uid : Nat)
  /-- DELETE `/students/pk/`: default destroy removes the `Student` row. -/
  | opDeleteStudent (uid : Nat)
  /-- DELETE `/teachers/pk/`: default destroy removes the `Teacher` row. -/
  | opDeleteTeacher (uid : Nat)

/-- Rewrite the updatable fields of the user with the given id. -/
def updateUserRow (users : List UserRow) (uid : Nat)
    (newFirstName : Option String) : List UserRow :=
  users.map (fun u =>
    if u.id = uid then { u with firstName := newFirstName.getD u.firstName }
    else u)

/-- One step of the user directory. -/
def applyDirOp (st : DirState) : DirOp → DirState
  | DirOp.opCreateStudent fn =>
    { users := st.users ++
        [{ id := st.nextId, role := Role.student, firstName := fn }],
      students := st.students ++ [st.nextId],
      teachers := st.teachers,
      nextId := st.nextId + 1 }
  | DirOp.opCreateTeacher => st
  | DirOp.opUpdateStudent uid fn =>
    { st with users := updateUserRow st.users uid fn }
  | DirOp.opUpdateTeacher uid fn =>
    { st with users := updateUserRow st.users uid fn }
  | DirOp.opAdminUpdateUser _ => st
  | DirOp.opDeleteStudent uid =>
    { st with students := st.students.filter (fun k => k ≠ uid) }
  | DirOp.opDeleteTeacher uid =>
    { st with teachers := st.teachers.filter (fun k => k ≠ uid) }

/-- Run a sequence of directory operations, left to right. -/
def applyDirOps (st : DirState) (ops : List DirOp) : DirState :=
  ops.foldl applyDirOp st

/-- `uid` is backed by exactly one user row, and the role of that row is
`r`. -/
def backedByRole (users : List UserRow) (uid : Nat) (r : Role) : Prop :=
  users.countP (fun u => u.id == uid) = 1 ∧
  ∀ u ∈ users, u.id = uid → u.role = r

instance (users : List UserRow) (uid : Nat) (r : Role) :
    Decidable (backedByRole users uid r) := by
  unfold backedByRole
  infer_instance

/-- The role invariant of the directory: every `Student` row is backed by
exactly one user of role student, every `Teacher` row by exactly one user
of role teacher; auxiliarily, every stored id is below the next id the
database will assign. -/
def dirInvariant (st : DirState) : Prop :=
  (∀ uid ∈ st.students, backedByRole st.users uid Role.student) ∧
  (∀ uid ∈ st.teachers, backedByRole st.users uid Role.teacher) ∧
  (∀ u ∈ st.users, u.id < st.nextId)

instance (st : DirState) : Decidable (dirInvariant st) := by
  unfold dirInvariant
  infer_instance

/-! ## Theorems -/

/-- Claim C1, counterexample: the claim requires every endpoint that
reports an attendance rate to report 100 when a student has zero
attendance records, but `StudentDetailView.get` (`views.py` line 360)
reports 0 on an empty record list, while the spec formula gives 100. -/
theorem claim_C1_counterexample :
    detailAttendanceRate [] = 0 ∧ specAttendanceRate [] = 100 ∧
      (0 : ℚ) ≠ 100 := by
  refine ⟨?_, ?_, by norm_num⟩ <;>
    simp [detailAttendanceRate, specAttendanceRate]

/-- Claim C1 as amended: the dashboard endpoint computes exactly the
specified rate (present-or-late over total times 100, and 100 on zero
records), while the student-detail endpoint computes the same ratio on a
non-empty record list but reports 0 on zero records. -/
theorem claim_C1_amended :
    (∀ records, dashboardAttendanceRate records = specAttendanceRate records) ∧
    detailAttendanceRate [] = 0 ∧
    ∀ s rest, detailAttendanceRate (s :: rest) = specAttendanceRate (s :: rest) := by
  refine ⟨fun records => rfl, by simp [detailAttendanceRate], fun s rest => ?_⟩
  simp [detailAttendanceRate, specAttendanceRate]

/-- Claim C2: `create_class_fee` run on a class of two students with a
failure injected at the second `Fee.objects.create` leaves the fee of
the first student persisted, because the loop in `FeeActionsView.post`
(`views.py` lines 152-158) has no enclosing transaction; the happy path
does create one unpaid fee per member with the requested amount and due
date. -/
theorem claim_C2_partial_persistence :
    (create_class_fee [1, 2] 3000 20240601 (some 1) []).1 =
      [mkUnpaidFee 1 3000 20240601] ∧
    (create_class_fee [1, 2] 3000 20240601 (some 1) []).2 = false ∧
    (create_class_fee [1, 2, 3] 3000 20240601 none []).1 =
      [mkUnpaidFee 1 3000 20240601, mkUnpaidFee 2 3000 20240601,
        mkUnpaidFee 3 3000 20240601] ∧
    (create_class_fee [1, 2, 3] 3000 20240601 none []).2 = true ∧
    ((create_class_fee [1, 2, 3] 3000 20240601 none []).1.all
      (fun f => f.status == FeeStatus.unpaid)) = true := by
  decide

/-- Claim C3, counterexample: no `pay` action is reachable under the
`/fees/` prefix — `FeeViewSet` (`views.py` lines 225-227) declares no
extra actions and `urls.py` adds none, so the route `/fees/id/pay/`
claimed by the specification does not exist. -/
theorem claim_C3_counterexample :
    feeViewSetActions.contains "pay" = false := by
  decide

/-- Claim C3 as amended: there is no dedicated pay route; a fee is paid
through the generic update endpoint by sending `status = paid`, which
unconditionally sets the status to paid, is idempotent, and changes no
other field of the fee. -/
theorem claim_C3_amended :
    feeViewSetActions.contains "pay" = false ∧
    ∀ f : Fee, (payViaUpdate f).status = FeeStatus.paid ∧
      payViaUpdate (payViaUpdate f) = payViaUpdate f ∧
      (payViaUpdate f).student = f.student ∧
      (payViaUpdate f).amount = f.amount ∧
      (payViaUpdate f).dueDate = f.dueDate := by
  exact ⟨by decide, fun f => ⟨rfl, rfl, rfl, rfl, rfl⟩⟩

/-- Claim C4, counterexample: the sequence mark-completed then
mark-in-progress, applied to a freshly created task, reaches a state with
status in-progress and a non-null completion timestamp, because
`Task.mark_in_progress` (`models.py` lines 252-255) never clears
`completed_at`; so the claimed invariant fails on a reachable state. -/
theorem claim_C4_counterexample :
    (applyTaskOps (taskCreate 1 "grading" 10 none)
        [TaskOp.opMarkCompleted 5, TaskOp.opMarkInProgress]).status =
      TaskStatus.inProgress ∧
    (applyTaskOps (taskCreate 1 "grading" 10 none)
        [TaskOp.opMarkCompleted 5, TaskOp.opMarkInProgress]).completedAt =
      some 5 ∧
    decide (taskInvariant (applyTaskOps (taskCreate 1 "grading" 10 none)
      [TaskOp.opMarkCompleted 5, TaskOp.opMarkInProgress])) = false := by
  decide

/-- Claim C4 as amended: the invariant "completed_at is non-null iff
status is completed" is established by task creation with a defaulted
status and by `mark_completed`, but it is not maintained by the other
task operations (`mark_in_progress` keeps a stale timestamp and the
generic update can move `status` while `completed_at` is read-only). -/
theorem claim_C4_amended :
    (∀ teacher title dueDate,
      taskInvariant (taskCreate teacher title dueDate none)) ∧
    (∀ t now, taskInvariant (Task.mark_completed t now)) := by
  constructor
  · intro teacher title dueDate
    simp [taskInvariant, taskCreate]
  · intro t now
    simp [taskInvariant, Task.mark_completed]

/-- Claim C8, counterexample: on a task that was completed (completion
timestamp 5), `mark_in_progress` sets the status to in-progress but the
completion timestamp stays non-null, contradicting the claim that it
leaves the timestamp null. -/
theorem claim_C8_counterexample :
    (Task.mark_in_progress
        (Task.mark_completed (taskCreate 1 "review" 3 none) 5)).status =
      TaskStatus.inProgress ∧
    (Task.mark_in_progress
        (Task.mark_completed (taskCreate 1 "review" 3 none) 5)).completedAt.isSome =
      true := by
  decide

/-- Claim C8 as amended: `mark_completed` sets status completed and a
non-null completion timestamp; `mark_in_progress` sets status in-progress
and leaves the completion timestamp unchanged (so null exactly when it
was already null). -/
theorem claim_C8_amended :
    ∀ (t : Task) (now : Nat),
      (Task.mark_completed t now).status = TaskStatus.completed ∧
      (Task.mark_completed t now).completedAt = some now ∧
      (Task.mark_completed t now).completedAt.isSome = true ∧
      (Task.mark_in_progress t).status = TaskStatus.inProgress ∧
      (Task.mark_in_progress t).completedAt = t.completedAt := by
  exact fun t now => ⟨rfl, rfl, rfl, rfl, rfl⟩

/-- Claim C5, counterexample: deleting a class removes the timetable
entries that referenced it — `Timetable.school_class` is declared with
`on_delete=CASCADE` (`models.py` line 123) — so a timetable entry does
not continue to exist with a null class reference as claimed. -/
theorem claim_C5_counterexample :
    (deleteSchoolClass ⟨[1], [], [⟨10, 1, "MON", "Math"⟩]⟩ 1).timetable = [] ∧
    (⟨[1], [], [⟨10, 1, "MON", "Math"⟩]⟩ : ClassState).timetable.length = 1 := by
  decide

/-- Claim C5 as amended: deleting a SchoolClass keeps every student (same
user ids and other fields, in order) and nulls the class reference on
exactly the students that referenced the deleted class, while timetable
entries referencing the class are deleted (CASCADE), the others kept
unchanged. -/
theorem claim_C5_amended :
    ∀ (st : ClassState) (c : Nat),
      (deleteSchoolClass st c).students.map StudentRow.userId =
        st.students.map StudentRow.userId ∧
      (deleteSchoolClass st c).students.map StudentRow.rollNumber =
        st.students.map StudentRow.rollNumber ∧
      ((deleteSchoolClass st c).students.all
        (fun s => s.schoolClass != some c)) = true ∧
      (deleteSchoolClass st c).students.map StudentRow.schoolClass =
        st.students.map (fun s =>
          if s.schoolClass = some c then none else s.schoolClass) ∧
      (deleteSchoolClass st c).timetable =
        st.timetable.filter (fun t => t.schoolClass ≠ c) := by
  intro st c
  have h1 : ∀ l : List StudentRow,
      (l.map (fun s => if s.schoolClass = some c
          then { s with schoolClass := none } else s)).map StudentRow.userId =
        l.map StudentRow.userId := by
    intro l
    induction l with
    | nil => rfl
    | cons s l ih => by_cases h : s.schoolClass = some c <;> simp [h, ih]
  have h2 : ∀ l : List StudentRow,
      (l.map (fun s => if s.schoolClass = some c
          then { s with schoolClass := none } else s)).map StudentRow.rollNumber =
        l.map StudentRow.rollNumber := by
    intro l
    induction l with
    | nil => rfl
    | cons s l ih => by_cases h : s.schoolClass = some c <;> simp [h, ih]
  have h3 : ∀ l : List StudentRow,
      ((l.map (fun s => if s.schoolClass = some c
          then { s with schoolClass := none } else s)).all
        (fun s => s.schoolClass != some c)) = true := by
    intro l
    induction l with
    | nil => rfl
    | cons s l ih => by_cases h : s.schoolClass = some c <;> simp [h, ih]
  have h4 : ∀ l : List StudentRow,
      (l.map (fun s => if s.schoolClass = some c
          then { s with schoolClass := none } else s)).map StudentRow.schoolClass =
        l.map (fun s =>
          if s.schoolClass = some c then none else s.schoolClass) := by
    intro l
    induction l with
    | nil => rfl
    | cons s l ih => by_cases h : s.schoolClass = some c <;> simp [h, ih]
  exact ⟨h1 st.students, h2 st.students, h3 st.students, h4 st.students, rfl⟩

/-- Claim C10, counterexample: `status` is a writable field of
`LeaveRequestSerializer` (only `user` is read-only, `serializers.py`
lines 174-179), so a create request carrying `status = approved` yields
an approved leave request, not a pending one. -/
theorem claim_C10_counterexample :
    (createLeaveRequest 1 (some 2) 7 9 "sick" (some LeaveStatus.approved)).status =
      LeaveStatus.approved ∧
    ((createLeaveRequest 1 (some 2) 7 9 "sick" (some LeaveStatus.approved)).status ==
      LeaveStatus.pending) = false := by
  decide

/-- Claim C10 as amended: the owner of the created leave request is
always the authenticated caller, whatever user the client supplies; the
status is
pending when the client does not supply one (model default), but a
client-supplied status is honored. -/
theorem claim_C10_amended :
    ∀ (authUser : Nat) (clientUser : Option Nat) (startDate endDate : Nat)
      (reason : String) (clientStatus : Option LeaveStatus),
      (createLeaveRequest authUser clientUser startDate endDate reason
        clientStatus).user = authUser ∧
      (createLeaveRequest authUser clientUser startDate endDate reason
        none).status = LeaveStatus.pending := by
  exact fun a cu s e r cs => ⟨rfl, rfl⟩

/-- Claim C7: the `unique_together` constraint on the (student, date)
pair of `Attendance` means that, starting from a table with no record for the
pair, the first create succeeds and stores exactly one record for the
pair, and a second create for the same pair fails with a conflict and
leaves the stored records unchanged. -/
theorem claim_C7 :
    ∀ (recs : List AttendanceRow) (s d : Nat) (st1 st2 : AttStatus),
      hasAttendance recs s d = false →
      (createAttendance recs s d st1).1 = true ∧
      countAttendance (createAttendance recs s d st1).2 s d = 1 ∧
      (createAttendance (createAttendance recs s d st1).2 s d st2).1 = false ∧
      (createAttendance (createAttendance recs s d st1).2 s d st2).2 =
        (createAttendance recs s d st1).2 := by
  intro recs s d st1 st2 h
  have hall : ∀ r ∈ recs, ¬ ((r.student == s && r.date == d) = true) := by
    unfold hasAttendance at h
    exact List.any_eq_false.mp h
  have hcount : recs.countP (fun r => r.student == s && r.date == d) = 0 :=
    List.countP_eq_zero.mpr hall
  have hstep : createAttendance recs s d st1 =
      (true, recs ++ [{ student := s, date := d, status := st1 }]) := by
    simp [createAttendance, h]
  have h2 : hasAttendance
      (recs ++ [{ student := s, date := d, status := st1 }]) s d = true := by
    unfold hasAttendance
    simp
  have hstep2 : createAttendance
      (recs ++ [{ student := s, date := d, status := st1 }]) s d st2 =
      (false, recs ++ [{ student := s, date := d, status := st1 }]) := by
    simp [createAttendance, h2]
  rw [hstep]
  refine ⟨rfl, ?_, ?_, ?_⟩
  · unfold countAttendance
    rw [List.countP_append, hcount]
    simp
  · rw [hstep2]
  · rw [hstep2]

/-- Claim C7 at a concrete input: an empty table, student 1, date 2. -/
theorem claim_C7_witness :
    hasAttendance [] 1 2 = false ∧
    ((createAttendance [] 1 2 AttStatus.present).1 = true ∧
     countAttendance (createAttendance [] 1 2 AttStatus.present).2 1 2 = 1 ∧
     (createAttendance (createAttendance [] 1 2 AttStatus.present).2 1 2
       AttStatus.late).1 = false ∧
     (createAttendance (createAttendance [] 1 2 AttStatus.present).2 1 2
       AttStatus.late).2 = (createAttendance [] 1 2 AttStatus.present).2) :=
  ⟨by decide, claim_C7 [] 1 2 AttStatus.present AttStatus.late (by decide)⟩

/-- Setting a field and reading it back yields the written value. -/
theorem getField_setField_self (p : Profile) (f : String) (v : Option String) :
    getField (setField p f v) f = v := by
  induction p with
  | nil => simp [setField, getField]
  | cons e p ih =>
    by_cases h : (e.1 == f) = true <;> simp [setField, getField, h, ih]

/-- Setting a field leaves every other field unchanged. -/
theorem getField_setField_ne (p : Profile) (f f' : String) (v : Option String)
    (hne : f ≠ f') : getField (setField p f v) f' = getField p f' := by
  induction p with
  | nil => simp [setField, getField, hne]
  | cons e p ih =>
    by_cases h : (e.1 == f) = true
    · have he : e.1 = f := by simpa using h
      have : (e.1 == f') = false := by simp [he, hne]
      simp [setField, getField, h, this, hne]
    · simp [setField, getField, h, ih]

/-- Unfolding equation of the serializer field loop. -/
theorem applyProfileData_cons (p : Profile) (fv : String × Option String)
    (req : List (String × Option String)) :
    applyProfileData p (fv :: req) =
      applyProfileData (if fv.2.isSome then setField p fv.1 fv.2 else p) req :=
  rfl

/-- A field not named in the request keeps its stored value across the
serializer field loop. -/
theorem getField_applyProfileData_not_mem (req : List (String × Option String))
    (p : Profile) (f : String) (hf : f ∉ req.map Prod.fst) :
    getField (applyProfileData p req) f = getField p f := by
  induction req generalizing p with
  | nil => rfl
  | cons fv req ih =>
    have hne : fv.1 ≠ f := by
      intro hc
      exact hf (by simp [hc])
    have hf' : f ∉ req.map Prod.fst := by
      intro hc
      exact hf (by simp [hc])
    rw [applyProfileData_cons]
    by_cases h : fv.2.isSome = true
    · rw [if_pos h, ih _ hf', getField_setField_ne _ _ _ _ hne]
    · rw [if_neg h, ih _ hf']

/-- A field sent with a non-null value ends up stored with that value,
provided the request names each field at most once. -/
theorem getField_applyProfileData_some (req : List (String × Option String))
    (p : Profile) (f : String) (v : String)
    (hnd : (req.map Prod.fst).Nodup) (hmem : (f, some v) ∈ req) :
    getField (applyProfileData p req) f = some v := by
  induction req generalizing p with
  | nil => cases hmem
  | cons fv req ih =>
    rw [List.map_cons] at hnd
    obtain ⟨hhead, htail⟩ := List.nodup_cons.mp hnd
    rcases List.mem_cons.mp hmem with heq | hmem'
    · subst heq
      rw [applyProfileData_cons]
      show getField (applyProfileData (setField p f (some v)) req) f = some v
      rw [getField_applyProfileData_not_mem req _ f hhead]
      exact getField_setField_self p f (some v)
    · rw [applyProfileData_cons]
      by_cases h : fv.2.isSome = true
      · rw [if_pos h]
        exact ih _ htail hmem'
      · rw [if_neg h]
        exact ih _ htail hmem'

/-- A field sent with a null value is skipped by the serializer loop and
keeps its stored value, provided the request names each field at most
once. -/
theorem getField_applyProfileData_none (req : List (String × Option String))
    (p : Profile) (f : String)
    (hnd : (req.map Prod.fst).Nodup) (hmem : (f, none) ∈ req) :
    getField (applyProfileData p req) f = getField p f := by
  induction req generalizing p with
  | nil => cases hmem
  | cons fv req ih =>
    rw [List.map_cons] at hnd
    obtain ⟨hhead, htail⟩ := List.nodup_cons.mp hnd
    rcases List.mem_cons.mp hmem with heq | hmem'
    · subst heq
      rw [applyProfileData_cons]
      show getField (applyProfileData p req) f = getField p f
      exact getField_applyProfileData_not_mem req _ f hhead
    · have hne : fv.1 ≠ f := by
        intro hc
        exact hhead (by simpa [hc] using List.mem_map_of_mem Prod.fst hmem')
      rw [applyProfileData_cons]
      by_cases h : fv.2.isSome = true
      · rw [if_pos h, ih _ htail hmem', getField_setField_ne _ _ _ _ hne]
      · rw [if_neg h, ih _ htail hmem']

/-- Claim C9, counterexample: a request whose profile sub-object carries
the field "phone" with a null value is not applied — the serializer loop
skips null values (`if value is not None`, `serializers.py` line 104) —
so the stored phone keeps its old value "123" instead of the null the
claim requires for a field present in the request. -/
theorem claim_C9_counterexample :
    getField ((updateProfile (some [("phone", some "123")])
        [("phone", none)]).getD []) "phone" = some "123" ∧
    ((some "123" : Option String) == (none : Option String)) = false := by
  decide

/-- Claim C9 as amended: when a user update carries profile sub-fields
(each field named at most once), a missing profile row is created, every
field sent with a non-null value is applied, and every other field — the
ones absent from the request and also the ones sent as null, which the
loop skips — keeps its previous value. -/
theorem claim_C9_amended :
    ∀ (p : Profile) (req : List (String × Option String)),
      (req.map Prod.fst).Nodup →
      (∀ f v, (f, some v) ∈ req →
        getField (applyProfileData p req) f = some v) ∧
      (∀ f, (f, none) ∈ req →
        getField (applyProfileData p req) f = getField p f) ∧
      (∀ f, f ∉ req.map Prod.fst →
        getField (applyProfileData p req) f = getField p f) ∧
      (∀ fv rest, (updateProfile none (fv :: rest)).isSome = true) ∧
      (∀ prof : Option Profile, updateProfile prof [] = prof) := by
  intro p req hnd
  refine ⟨?_, ?_, ?_, ?_, ?_⟩
  · intro f v hmem
    exact getField_applyProfileData_some req p f v hnd hmem
  · intro f hmem
    exact getField_applyProfileData_none req p f hnd hmem
  · intro f hf
    exact getField_applyProfileData_not_mem req p f hf
  · intro fv rest
    simp [updateProfile]
  · intro prof
    simp [updateProfile]

/-- Claim C9 at a concrete input: stored profile with a phone, a request
setting address and sending city as null. -/
theorem claim_C9_witness :
    (([("address", some "A"), ("city", (none : Option String))].map
      Prod.fst).Nodup) ∧
    ((∀ f v, (f, some v) ∈ [("address", some "A"), ("city", (none : Option String))] →
        getField (applyProfileData [("phone", some "1")]
          [("address", some "A"), ("city", none)]) f = some v) ∧
      (∀ f, (f, (none : Option String)) ∈ [("address", some "A"), ("city", none)] →
        getField (applyProfileData [("phone", some "1")]
          [("address", some "A"), ("city", none)]) f =
          getField [("phone", some "1")] f) ∧
      (∀ f, f ∉ ([("address", some "A"), ("city", (none : Option String))].map
          Prod.fst) →
        getField (applyProfileData [("phone", some "1")]
          [("address", some "A"), ("city", none)]) f =
          getField [("phone", some "1")] f) ∧
      (∀ fv rest, (updateProfile none (fv :: rest)).isSome = true) ∧
      (∀ prof : Option Profile, updateProfile prof [] = prof)) :=
  ⟨by decide,
    claim_C9_amended [("phone", some "1")]
      [("address", some "A"), ("city", none)] (by decide)⟩

/-- Appending a user with a fresh (strictly larger) id preserves being
backed by exactly one user of a given role. -/
theorem backedByRole_append_fresh (users : List UserRow) (uid : Nat)
    (r : Role) (u0 : UserRow) (h : backedByRole users uid r)
    (hfresh : ∀ u ∈ users, u.id < u0.id) :
    backedByRole (users ++ [u0]) uid r := by
  obtain ⟨hc, hr⟩ := h
  have hpos : 0 < users.countP (fun u => u.id == uid) := by omega
  obtain ⟨u, hu, hpu⟩ := List.countP_pos_iff.mp hpos
  have huid : u.id = uid := by simpa using hpu
  have hne : u0.id ≠ uid := by
    have := hfresh u hu
    omega
  constructor
  · rw [List.countP_append, hc, List.countP_cons]
    simp [hne]
  · intro v hv hvid
    rcases List.mem_append.mp hv with h' | h'
    · exact hr v h' hvid
    · have : v = u0 := by simpa using h'
      subst this
      exact absurd hvid hne

/-- A freshly appended user with an id above every stored id is backed by
exactly itself. -/
theorem backedByRole_fresh_new (users : List UserRow) (u0 : UserRow)
    (hfresh : ∀ u ∈ users, u.id < u0.id) :
    backedByRole (users ++ [u0]) u0.id u0.role := by
  have h0 : users.countP (fun u => u.id == u0.id) = 0 :=
    List.countP_eq_zero.mpr (fun u hu => by
      have := hfresh u hu
      simp
      omega)
  constructor
  · rw [List.countP_append, h0, List.countP_cons]
    simp
  · intro v hv hvid
    rcases List.mem_append.mp hv with h' | h'
    · have := hfresh v h'
      omega
    · have : v = u0 := by simpa using h'
      subst this
      rfl

/-- Rewriting user rows without touching ids or roles preserves being
backed by exactly one user of a given role. -/
theorem backedByRole_map (users : List UserRow) (g : UserRow → UserRow)
    (hg : ∀ u, (g u).id = u.id ∧ (g u).role = u.role) (uid : Nat) (r : Role)
    (h : backedByRole users uid r) : backedByRole (users.map g) uid r := by
  obtain ⟨hc, hr⟩ := h
  constructor
  · rw [List.countP_map]
    have hfun : ((fun u => u.id == uid) ∘ g) = (fun u => u.id == uid) :=
      funext fun u => by
        simp [Function.comp, (hg u).1]
    rw [hfun, hc]
  · intro v hv hvid
    obtain ⟨u, hu, rfl⟩ := List.mem_map.mp hv
    have huid : u.id = uid := by
      rw [← (hg u).1]
      exact hvid
    rw [(hg u).2]
    exact hr u hu huid

/-- The per-user rewrite of `updateUserRow` touches neither id nor
role. -/
theorem updateUserRow_preserves (uid : Nat) (fn : Option String) :
    ∀ u : UserRow,
      ((if u.id = uid then { u with firstName := fn.getD u.firstName }
        else u) : UserRow).id = u.id ∧
      ((if u.id = uid then { u with firstName := fn.getD u.firstName }
        else u) : UserRow).role = u.role := by
  intro u
  by_cases h : u.id = uid <;> simp [h]

/-- Every single API operation on the user directory preserves the role
invariant. -/
theorem applyDirOp_preserves (st : DirState) (op : DirOp)
    (h : dirInvariant st) : dirInvariant (applyDirOp st op) := by
  obtain ⟨hS, hT, hLt⟩ := h
  cases op with
  | opCreateStudent fn =>
    refine ⟨?_, ?_, ?_⟩
    · intro uid hm
      rcases List.mem_append.mp hm with hm' | hm'
      · exact backedByRole_append_fresh st.users uid Role.student _
          (hS uid hm') (fun u hu => hLt u hu)
      · have : uid = st.nextId := by simpa using hm'
        subst this
        exact backedByRole_fresh_new st.users _ (fun u hu => hLt u hu)
    · intro uid hm
      exact backedByRole_append_fresh st.users uid Role.teacher _
        (hT uid hm) (fun u hu => hLt u hu)
    · intro u hu
      rcases List.mem_append.mp hu with h' | h'
      · have := hLt u h'
        simp only [applyDirOp]
        omega
      · have : u = ⟨st.nextId, Role.student, fn⟩ := by simpa using h'
        subst this
        simp only [applyDirOp]
        omega
  | opCreateTeacher => exact ⟨hS, hT, hLt⟩
  | opUpdateStudent uid fn =>
    refine ⟨?_, ?_, ?_⟩
    · intro v hv
      exact backedByRole_map st.users _ (updateUserRow_preserves uid fn) v
        Role.student (hS v hv)
    · intro v hv
      exact backedByRole_map st.users _ (updateUserRow_preserves uid fn) v
        Role.teacher (hT v hv)
    · intro u hu
      obtain ⟨w, hw, rfl⟩ := List.mem_map.mp hu
      have hid := (updateUserRow_preserves uid fn w).1
      simp only [applyDirOp]
      rw [hid]
      exact hLt w hw
  | opUpdateTeacher uid fn =>
    refine ⟨?_, ?_, ?_⟩
    · intro v hv
      exact backedByRole_map st.users _ (updateUserRow_preserves uid fn) v
        Role.student (hS v hv)
    · intro v hv
      exact backedByRole_map st.users _ (updateUserRow_preserves uid fn) v
        Role.teacher (hT v hv)
    · intro u hu
      obtain ⟨w, hw, rfl⟩ := List.mem_map.mp hu
      have hid := (updateUserRow_preserves uid fn w).1
      simp only [applyDirOp]
      rw [hid]
      exact hLt w hw
  | opAdminUpdateUser uid => exact ⟨hS, hT, hLt⟩
  | opDeleteStudent uid =>
    refine ⟨?_, hT, hLt⟩
    intro v hv
    exact hS v (List.mem_of_mem_filter hv)
  | opDeleteTeacher uid =>
    refine ⟨hS, ?_, hLt⟩
    intro v hv
    exact hT v (List.mem_of_mem_filter hv)

/-- Claim C6: in every state reachable through the public API operations
from a state satisfying the role invariant, every Student row is backed
by exactly one User whose role is student and every Teacher row by
exactly one User whose role is teacher.  (`StudentSerializer.create`
hard-codes the student role, teacher creation is rejected by the nested
serializer, `UserViewSet` is read-only, and no update path writes
`role`.) -/
theorem claim_C6 :
    ∀ (ops : List DirOp) (st : DirState),
      dirInvariant st → dirInvariant (applyDirOps st ops) := by
  intro ops
  induction ops with
  | nil => exact fun st h => h
  | cons op ops ih =>
    intro st h
    exact ih _ (applyDirOp_preserves st op h)

/-- Claim C6 at a concrete input: starting from the empty directory,
create two students, update the first, delete the second. -/
theorem claim_C6_witness :
    dirInvariant ⟨[], [], [], 0⟩ ∧
    dirInvariant (applyDirOps ⟨[], [], [], 0⟩
      [DirOp.opCreateStudent "ana", DirOp.opCreateStudent "bob",
        DirOp.opUpdateStudent 0 (some "anna"), DirOp.opDeleteStudent 1]) :=
  ⟨by decide,
    claim_C6
      [DirOp.opCreateStudent "ana", DirOp.opCreateStudent "bob",
        DirOp.opUpdateStudent 0 (some "anna"), DirOp.opDeleteStudent 1]
      ⟨[], [], [], 0⟩ (by decide)⟩

end SchoolMgmt
